import Mathlib

/-!
Verification of the story publishing helpers of twinejs
(src/store/publish/helpers.js).

The JavaScript strings are modelled as lists of characters.  Nullable
JavaScript values (a start identifier that may be null or undefined, an
optional format-options string, an optional properties.source template)
are modelled with Option.  JavaScript truthiness on such slots is
captured by jsTruthy: none and the empty string are falsy.  Numbers that
the code stringifies (local ids, zoom, passage geometry) are modelled as
Nat or Int with decimal rendering.
-/

/-- Characters of a string literal. -/
def cs (s : String) : List Char := s.toList

/-- Decimal characters of a natural number, as the JavaScript template
literal renders a nonnegative number. -/
def natChars (n : Nat) : List Char := Nat.toDigits 10 n

/-- Decimal characters of an integer, as the JavaScript template literal
renders an integer. -/
def intChars (i : Int) : List Char :=
  if i < 0 then '-' :: natChars i.natAbs else natChars i.toNat

/-- Truthiness of a nullable string slot: null, undefined and the empty
string are falsy. -/
def jsTruthy : Option (List Char) → Bool
  | some s => !s.isEmpty
  | none => false

/-- The JavaScript expression a or-else b on nullable string slots, as in
startId = startId or-else story.startPassage (helpers.js line 74): a wins
exactly when it is truthy. -/
def jsOr (a b : Option (List Char)) : Option (List Char) :=
  match a with
  | some s => if s = [] then b else some s
  | none => b

/-- Replacement for one character performed by lodash.escape: the five
HTML-significant characters become entities, everything else is kept. -/
def escChar (c : Char) : List Char :=
  if c = '&' then cs ("&amp;")
  else if c = '<' then cs ("&lt;")
  else if c = '>' then cs ("&gt;")
  else if c = '\"' then cs ("&quot;")
  else if c = Char.ofNat 39 then cs ("&#39;")
  else [c]

/-- lodash.escape on a string. -/
def escapeList : List Char → List Char
  | [] => []
  | c :: rest => escChar c ++ escapeList rest

/-- lodash.escape on a nullable string: escape(null) is the empty
string. -/
def escOpt : Option (List Char) → List Char
  | none => []
  | some s => escapeList s

/-- AppInfo, the name and version of the producing application. -/
structure AppInfo where
  name : List Char
  version : List Char
deriving DecidableEq

/-- A passage of a story (data model of helpers.js). -/
structure Passage where
  id : List Char
  name : List Char
  tags : List (List Char)
  left : Int
  top : Int
  width : Int
  height : Int
  text : List Char
deriving DecidableEq

/-- A story.  tagColors is the association list of tag name and color in
key order; startPassage is the identifier of the declared start passage
or none. -/
structure Story where
  name : List Char
  ifid : List Char
  zoom : Nat
  storyFormat : List Char
  storyFormatVersion : List Char
  stylesheet : List Char
  script : List Char
  tagColors : List (List Char × List Char)
  startPassage : Option (List Char)
  passages : List Passage
deriving DecidableEq

/-- The properties object of a story format descriptor. -/
structure FormatProperties where
  source : Option (List Char)
deriving DecidableEq

/-- A story format descriptor. -/
structure StoryFormat where
  properties : Option FormatProperties
deriving DecidableEq

/-- Errors thrown by the publish helpers. -/
inductive PubError where
  | missingTemplateSource
  | noStartPoint
  | startPointNotFound
deriving DecidableEq

/-- publishPassage (helpers.js lines 140 to 149): one passage rendered to
a tw-passagedata element with its local id. -/
def publishPassage (passage : Passage) (localId : Nat) : List Char :=
  cs ("<tw-passagedata pid=\"") ++ escapeList (natChars localId)
    ++ cs ("\" name=\"") ++ escapeList passage.name
    ++ cs ("\" tags=\"") ++ escapeList (List.intercalate (cs (" ")) passage.tags)
    ++ cs ("\" position=\"") ++ intChars passage.left ++ cs (",") ++ intChars passage.top
    ++ cs ("\" size=\"") ++ intChars passage.width ++ cs (",") ++ intChars passage.height
    ++ cs ("\">") ++ escapeList passage.text ++ cs ("</tw-passagedata>")

/-- The forEach loop of publishStory (helpers.js lines 96 to 102): walk
the passages with a running index, concatenating each published passage
and recording the local id of the last passage whose id equals the
resolved start identifier.  The first component is the accumulated
passage data, the second the recorded start local id. -/
def walkPassages (sid : Option (List Char)) : List Passage → Nat → Option Nat → List Char × Option Nat
  | [], _, sl => ([], sl)
  | p :: rest, i, sl =>
    let r := walkPassages sid rest (i + 1) (if some p.id = sid then some (i + 1) else sl)
    (publishPassage p (i + 1) ++ r.1, r.2)

/-- One tw-tag element of the tagData array (helpers.js lines 104 to
109). -/
def tagElem (tc : List Char × List Char) : List Char :=
  cs ("<tw-tag name=\"") ++ escapeList tc.1 ++ cs ("\" color=\"") ++ escapeList tc.2
    ++ cs ("\"></tw-tag>")

/-- The startnode attribute value (helpers.js line 113): the recorded
local id rendered in decimal, or the empty string. -/
def startnodeChars : Option Nat → List Char
  | some n => natChars n
  | none => []

/-- The opening tw-storydata tag with its attributes (helpers.js lines
112 to 120), for a given startnode attribute value. -/
def storyOpenTag (app : AppInfo) (story : Story) (opts : Option (List Char)) (sn : List Char) : List Char :=
  cs ("<tw-storydata name=\"") ++ escapeList story.name
    ++ cs ("\" startnode=\"") ++ sn
    ++ cs ("\" creator=\"") ++ escapeList app.name
    ++ cs ("\" creator-version=\"") ++ escapeList app.version
    ++ cs ("\" ifid=\"") ++ escapeList story.ifid
    ++ cs ("\" zoom=\"") ++ escapeList (natChars story.zoom)
    ++ cs ("\" format=\"") ++ escapeList story.storyFormat
    ++ cs ("\" format-version=\"") ++ escapeList story.storyFormatVersion
    ++ cs ("\" options=\"") ++ escOpt opts ++ cs ("\" hidden>")

/-- The style element wrapping the raw stylesheet (helpers.js lines 121
to 124). -/
def styleElem (story : Story) : List Char :=
  cs ("<style role=\"stylesheet\" id=\"twine-user-stylesheet\" type=\"text/twine-css\">")
    ++ story.stylesheet ++ cs ("</style>")

/-- The script element wrapping the raw script (helpers.js lines 125 to
128). -/
def scriptElem (story : Story) : List Char :=
  cs ("<script role=\"script\" id=\"twine-user-script\" type=\"text/twine-javascript\">")
    ++ story.script ++ cs ("</script>")

/-- The full tw-storydata fragment for an already resolved start
identifier (helpers.js lines 92 to 132).  The tagData array is coerced
to a string by the JavaScript string concatenation, which joins the
elements with commas; this is List.intercalate with a comma here. -/
def storyAssemble (app : AppInfo) (story : Story) (opts : Option (List Char)) (sid : Option (List Char)) : List Char :=
  storyOpenTag app story opts (startnodeChars (walkPassages sid story.passages 0 none).2)
    ++ styleElem story ++ scriptElem story
    ++ List.intercalate (cs (",")) (story.tagColors.map tagElem)
    ++ (walkPassages sid story.passages 0 none).1 ++ cs ("</tw-storydata>")

/-- publishStory after the start identifier has been resolved (helpers.js
lines 78 to 132): in strict mode a falsy resolved identifier raises
NoStartPoint and a resolved identifier matching no passage raises
StartPointNotFound; otherwise the fragment is produced. -/
def publishStoryResolved (app : AppInfo) (story : Story) (opts : Option (List Char)) (sid : Option (List Char)) (startOptional : Bool) : Except PubError (List Char) :=
  if startOptional = false ∧ jsTruthy sid = false then
    .error .noStartPoint
  else if startOptional = false ∧ (story.passages.find? fun p => decide (some p.id = sid)).isNone then
    .error .startPointNotFound
  else
    .ok (storyAssemble app story opts sid)

/-- publishStory (helpers.js lines 67 to 133): resolve the start
identifier by JavaScript or-else of the argument and the declared start,
then publish. -/
def publishStory (appInfo : AppInfo) (story : Story) (formatOptions startId : Option (List Char)) (startOptional : Bool) : Except PubError (List Char) :=
  publishStoryResolved appInfo story formatOptions (jsOr startId story.startPassage) startOptional

/-- Global literal replacement, fuelled so that the recursion is
structural; fuel is always instantiated with the length of the scanned
list, and each step consumes at least one character, so the fuel never
runs out.  Mirrors String.replace with a global literal pattern and a
function replacement: scan left to right, at a match emit the
replacement and continue after the matched text without rescanning the
replacement. -/
def replaceFuel (pat rep : List Char) : Nat → List Char → List Char
  | _, [] => []
  | 0, l => l
  | fuel + 1, c :: rest =>
    if pat ≠ [] ∧ pat.isPrefixOf (c :: rest) then
      rep ++ replaceFuel pat rep fuel ((c :: rest).drop pat.length)
    else
      c :: replaceFuel pat rep fuel rest

/-- Global literal replacement of pat by rep. -/
def replaceAllList (pat rep l : List Char) : List Char :=
  replaceFuel pat rep l.length l

/-- Global replacement where the replacement callback can throw, as the
STORY_DATA callback of publishStoryWithFormat can: the callback is
invoked once per match and a thrown error propagates. -/
def replaceFuelM (pat : List Char) (f : Unit → Except PubError (List Char)) : Nat → List Char → Except PubError (List Char)
  | _, [] => .ok []
  | 0, l => .ok l
  | fuel + 1, c :: rest =>
    if pat ≠ [] ∧ pat.isPrefixOf (c :: rest) then
      match f () with
      | .error e => .error e
      | .ok r =>
        match replaceFuelM pat f fuel ((c :: rest).drop pat.length) with
        | .error e => .error e
        | .ok tail => .ok (r ++ tail)
    else
      match replaceFuelM pat f fuel rest with
      | .error e => .error e
      | .ok tail => .ok (c :: tail)

/-- Global replacement with a throwing callback. -/
def replaceAllM (pat : List Char) (f : Unit → Except PubError (List Char)) (l : List Char) : Except PubError (List Char) :=
  replaceFuelM pat f l.length l

/-- The STORY_NAME placeholder token. -/
def NAMETOK : List Char := cs ("\x7b\x7bSTORY_NAME\x7d\x7d")

/-- The STORY_DATA placeholder token. -/
def DATATOK : List Char := cs ("\x7b\x7bSTORY_DATA\x7d\x7d")

/-- publishStoryWithFormat (helpers.js lines 15 to 39): require a truthy
properties.source, then replace every STORY_NAME token by the escaped
story name, then in the result replace every STORY_DATA token by the
strict publication of the story, the callback running once per match. -/
def publishStoryWithFormat (appInfo : AppInfo) (story : Story) (format : StoryFormat) (formatOptions startId : Option (List Char)) : Except PubError (List Char) :=
  match format.properties with
  | none => .error .missingTemplateSource
  | some props =>
    match props.source with
    | none => .error .missingTemplateSource
    | some src =>
      if src = [] then .error .missingTemplateSource
      else
        replaceAllM DATATOK
          (fun _ => publishStory appInfo story formatOptions startId false)
          (replaceAllList NAMETOK (escapeList story.name) src)

/-- One step of the publishArchive reduce (helpers.js lines 44 to 48):
publish the story in lenient mode with no explicit start and null format
options, appending a blank line after the fragment. -/
def archiveStep (appInfo : AppInfo) (out : List Char) (story : Story) : Except PubError (List Char) :=
  match publishStory appInfo story none none true with
  | .error e => .error e
  | .ok s => .ok (out ++ s ++ cs ("\n\n"))

/-- publishArchive (helpers.js lines 43 to 49): reduce over the stories
starting from the empty string. -/
def publishArchive (stories : List Story) (appInfo : AppInfo) : Except PubError (List Char) :=
  List.foldlM (archiveStep appInfo) [] stories

/-- The tw-storydata fragment with an explicit startnode attribute value
and the passage data written as the flattened enumeration of the
passages with local ids 1 upward; used to state the content-layout
claims. -/
def storyBodyWith (app : AppInfo) (story : Story) (opts : Option (List Char)) (sn : List Char) : List Char :=
  storyOpenTag app story opts sn
    ++ styleElem story ++ scriptElem story
    ++ List.intercalate (cs (",")) (story.tagColors.map tagElem)
    ++ ((story.passages.enum).map fun x => publishPassage x.2 (x.1 + 1)).flatten
    ++ cs ("</tw-storydata>")

/-- Fuelled scanner for safe escaping; fuel is always instantiated with
the length of the scanned list.  A string is safely escaped when it
holds no raw angle bracket or double quote and every ampersand starts
one of the five entities emitted by lodash.escape. -/
def okEscFuel : Nat → List Char → Bool
  | _, [] => true
  | 0, _ :: _ => false
  | fuel + 1, c :: rest =>
    if c = '<' || c = '>' || c = '\"' then false
    else if c = '&' then
      if (cs ("amp;")).isPrefixOf rest then okEscFuel fuel (rest.drop 4)
      else if (cs ("lt;")).isPrefixOf rest then okEscFuel fuel (rest.drop 3)
      else if (cs ("gt;")).isPrefixOf rest then okEscFuel fuel (rest.drop 3)
      else if (cs ("quot;")).isPrefixOf rest then okEscFuel fuel (rest.drop 5)
      else if (cs ("#39;")).isPrefixOf rest then okEscFuel fuel (rest.drop 4)
      else false
    else okEscFuel fuel rest

/-- A string is safely escaped: no raw angle bracket or double quote and
every ampersand starts one of the five entities of lodash.escape. -/
def okEscaped (l : List Char) : Bool := okEscFuel l.length l

/-- Occurrence of a nonempty character sequence inside another. -/
def containsSeq (pat : List Char) : List Char → Bool
  | [] => pat.isEmpty
  | c :: rest => pat.isPrefixOf (c :: rest) || containsSeq pat rest

/-- Decidable equality of publish results, used to evaluate concrete
runs of the helpers inside proofs. -/
instance : DecidableEq (Except PubError (List Char)) := fun a b =>
  match a, b with
  | .ok x, .ok y =>
    if h : x = y then isTrue (by rw [h]) else isFalse (by simp [h])
  | .error e, .error f =>
    if h : e = f then isTrue (by rw [h]) else isFalse (by simp [h])
  | .ok _, .error _ => isFalse (by simp)
  | .error _, .ok _ => isFalse (by simp)

/-- Concrete application info used in the concrete runs below. -/
def app0 : AppInfo := ⟨cs ("Twine"), cs ("2.3.5")⟩

/-- A passage with identifier a. -/
def passA : Passage := ⟨cs ("a"), cs ("Alpha"), [], 0, 0, 100, 100, cs ("hello")⟩

/-- A passage with identifier b. -/
def passB : Passage := ⟨cs ("b"), cs ("Beta"), [], 10, 20, 100, 100, cs ("world")⟩

/-- A passage whose identifier is the empty string. -/
def passEmptyId : Passage := ⟨[], cs ("Empty"), [], 0, 0, 100, 100, cs ("x")⟩

/-- A passage whose text holds a dollar-digit sequence that pattern
replacement could misread as a backreference. -/
def passDollar : Passage := ⟨cs ("p"), cs ("P"), [], 0, 0, 100, 100, cs ("win $1 now")⟩

/-- A story with two tag colors and no passages. -/
def storyTwoTags : Story :=
  ⟨cs ("S"), cs ("I"), 1, cs ("F"), cs ("1"), cs ("css"), cs ("js"),
    [(cs ("a"), cs ("red")), (cs ("b"), cs ("blue"))], none, []⟩

/-- A story with two passages whose declared start is the second. -/
def storyTwoPass : Story :=
  ⟨cs ("S2"), cs ("I2"), 1, cs ("F"), cs ("1"), [], [], [], some (cs ("b")), [passA, passB]⟩

/-- A story whose declared start is the empty string and whose sole
passage has the empty string as identifier. -/
def storyEmptyStart : Story :=
  ⟨cs ("S3"), cs ("I3"), 1, cs ("F"), cs ("1"), [], [], [], some [], [passEmptyId]⟩

/-- A story with no declared start. -/
def storyNoStart : Story :=
  ⟨cs ("S4"), cs ("I4"), 1, cs ("F"), cs ("1"), [], [], [], none, [passA]⟩

/-- A story with a declared start matching its sole passage. -/
def storyDeclared : Story :=
  ⟨cs ("S5"), cs ("I5"), 1, cs ("F"), cs ("1"), [], [], [], some (cs ("a")), [passA]⟩

/-- A story whose name holds an ampersand and whose passage text holds a
dollar-digit sequence. -/
def storyDollar : Story :=
  ⟨cs ("A&B"), cs ("I6"), 1, cs ("F"), cs ("1"), [], [], [], some (cs ("p")), [passDollar]⟩

/-- A story whose name is literally the STORY_DATA placeholder token. -/
def storyNameTok : Story :=
  ⟨cs ("\x7b\x7bSTORY_DATA\x7d\x7d"), cs ("I7"), 1, cs ("F"), cs ("1"), [], [], [],
    some (cs ("p")), [passDollar]⟩

/-- The story format of the specification example: a template with text
around one STORY_NAME and one STORY_DATA token. -/
def fmtSpec : StoryFormat :=
  ⟨some ⟨some (cs ("before \x7b\x7bSTORY_NAME\x7d\x7d mid \x7b\x7bSTORY_DATA\x7d\x7d after"))⟩⟩

/-- A format whose template holds one STORY_NAME token between two
letters. -/
def fmtAB : StoryFormat := ⟨some ⟨some (cs ("A\x7b\x7bSTORY_NAME\x7d\x7dB"))⟩⟩

/-- A format whose properties carry an empty source template. -/
def fmtEmptySource : StoryFormat := ⟨some ⟨some []⟩⟩

/-- A format with no properties object. -/
def fmtNoProps : StoryFormat := ⟨none⟩

/-- A format whose template is exactly one STORY_DATA token. -/
def fmtDataOnly : StoryFormat := ⟨some ⟨some DATATOK⟩⟩

/-! ## Helper lemmas about literal replacement -/

theorem isPrefixOf_self_append (l t : List Char) : l.isPrefixOf (l ++ t) = true := by
  induction l with
  | nil => simp [List.isPrefixOf]
  | cons c rest ih => simp [List.isPrefixOf, ih]

theorem replaceFuel_congr (pat rep : List Char) :
    ∀ (fuel fuel' : Nat) (l : List Char), l.length ≤ fuel → l.length ≤ fuel' →
      replaceFuel pat rep fuel l = replaceFuel pat rep fuel' l := by
  intro fuel
  induction fuel with
  | zero =>
    intro fuel' l h h'
    cases l with
    | nil => cases fuel' <;> rfl
    | cons c rest => simp at h
  | succ f ih =>
    intro fuel' l h h'
    cases l with
    | nil => cases fuel' <;> rfl
    | cons c rest =>
      cases fuel' with
      | zero => simp at h'
      | succ f' =>
        simp only [replaceFuel]
        by_cases hc : pat ≠ [] ∧ pat.isPrefixOf (c :: rest)
        · rw [if_pos hc, if_pos hc]
          have hp : 0 < pat.length := List.length_pos.mpr hc.1
          congr 1
          apply ih
          · simp only [List.length_drop, List.length_cons]
            simp only [List.length_cons] at h
            omega
          · simp only [List.length_drop, List.length_cons]
            simp only [List.length_cons] at h'
            omega
        · rw [if_neg hc, if_neg hc]
          congr 1
          apply ih
          · simp only [List.length_cons] at h
            omega
          · simp only [List.length_cons] at h'
            omega

theorem replaceAllList_token (pat rep tail : List Char) (hp : pat ≠ []) :
    replaceAllList pat rep (pat ++ tail) = rep ++ replaceAllList pat rep tail := by
  cases pat with
  | nil => exact absurd rfl hp
  | cons c pcs =>
    show replaceFuel (c :: pcs) rep ((c :: pcs ++ tail).length) (c :: pcs ++ tail) = _
    simp only [List.cons_append, List.length_cons]
    rw [replaceFuel, if_pos ⟨hp, by simpa using isPrefixOf_self_append (c :: pcs) tail⟩]
    congr 1
    have hdrop : (c :: (pcs ++ tail)).drop (c :: pcs).length = tail := by
      simpa using List.drop_left pcs tail
    rw [hdrop]
    apply replaceFuel_congr
    · simp
    · exact Nat.le_refl _

theorem replaceAllList_step (pat rep : List Char) (c : Char) (rest : List Char)
    (h : pat.isPrefixOf (c :: rest) = false) :
    replaceAllList pat rep (c :: rest) = c :: replaceAllList pat rep rest := by
  show replaceFuel pat rep ((c :: rest).length) (c :: rest) = _
  simp only [List.length_cons]
  rw [replaceFuel, if_neg]
  · rfl
  · intro hc
    have := hc.2
    simp [h] at this

theorem replaceFuelM_pure (pat r : List Char) :
    ∀ (fuel : Nat) (l : List Char),
      replaceFuelM pat (fun _ => .ok r) fuel l = .ok (replaceFuel pat r fuel l) := by
  intro fuel
  induction fuel with
  | zero => intro l; cases l <;> rfl
  | succ f ih =>
    intro l
    cases l with
    | nil => rfl
    | cons c rest =>
      simp only [replaceFuelM, replaceFuel]
      by_cases hc : pat ≠ [] ∧ pat.isPrefixOf (c :: rest)
      · rw [if_pos hc, if_pos hc, ih]
      · rw [if_neg hc, if_neg hc, ih]

theorem replaceFuelM_error (pat : List Char) (f : Unit → Except PubError (List Char)) :
    ∀ (fuel : Nat) (l : List Char) (e : PubError),
      replaceFuelM pat f fuel l = .error e → f () = .error e := by
  intro fuel
  induction fuel with
  | zero =>
    intro l e h
    cases l <;> simp [replaceFuelM] at h
  | succ fu ih =>
    intro l e h
    cases l with
    | nil => simp [replaceFuelM] at h
    | cons c rest =>
      rw [replaceFuelM] at h
      by_cases hc : pat ≠ [] ∧ pat.isPrefixOf (c :: rest)
      · rw [if_pos hc] at h
        cases hf : f () with
        | error e' =>
          rw [hf] at h
          simp at h
          rw [h]
        | ok r =>
          rw [hf] at h
          cases hrec : replaceFuelM pat f fu ((c :: rest).drop pat.length) with
          | error e2 =>
            have hsrc := ih _ _ hrec
            rw [hf] at hsrc
            simp at hsrc
          | ok t =>
            rw [hrec] at h
            simp at h
      · rw [if_neg hc] at h
        cases hrec : replaceFuelM pat f fu rest with
        | error e2 =>
          rw [hrec] at h
          simp at h
          rw [← h]
          exact ih _ _ hrec
        | ok t =>
          rw [hrec] at h
          simp at h

theorem replaceFuelM_congr (pat : List Char) (f : Unit → Except PubError (List Char)) :
    ∀ (fuel fuel' : Nat) (l : List Char), l.length ≤ fuel → l.length ≤ fuel' →
      replaceFuelM pat f fuel l = replaceFuelM pat f fuel' l := by
  intro fuel
  induction fuel with
  | zero =>
    intro fuel' l h h'
    cases l with
    | nil => cases fuel' <;> rfl
    | cons c rest => simp at h
  | succ fu ih =>
    intro fuel' l h h'
    cases l with
    | nil => cases fuel' <;> rfl
    | cons c rest =>
      cases fuel' with
      | zero => simp at h'
      | succ fu' =>
        simp only [replaceFuelM]
        by_cases hc : pat ≠ [] ∧ pat.isPrefixOf (c :: rest)
        · rw [if_pos hc, if_pos hc]
          have hp : 0 < pat.length := List.length_pos.mpr hc.1
          have hrec : replaceFuelM pat f fu ((c :: rest).drop pat.length)
              = replaceFuelM pat f fu' ((c :: rest).drop pat.length) := by
            apply ih
            · simp only [List.length_drop, List.length_cons]
              simp only [List.length_cons] at h
              omega
            · simp only [List.length_drop, List.length_cons]
              simp only [List.length_cons] at h'
              omega
          rw [hrec]
        · rw [if_neg hc, if_neg hc]
          have hrec : replaceFuelM pat f fu rest = replaceFuelM pat f fu' rest := by
            apply ih
            · simp only [List.length_cons] at h
              omega
            · simp only [List.length_cons] at h'
              omega
          rw [hrec]

theorem replaceAllM_token_ok (pat tail : List Char) (f : Unit → Except PubError (List Char))
    (r : List Char) (hp : pat ≠ []) (hf : f () = .ok r) :
    replaceAllM pat f (pat ++ tail) =
      match replaceAllM pat f tail with
      | .error e => .error e
      | .ok t => .ok (r ++ t) := by
  cases pat with
  | nil => exact absurd rfl hp
  | cons c pcs =>
    show replaceFuelM (c :: pcs) f ((c :: pcs ++ tail).length) (c :: pcs ++ tail) = _
    simp only [List.cons_append, List.length_cons]
    rw [replaceFuelM, if_pos ⟨hp, by simpa using isPrefixOf_self_append (c :: pcs) tail⟩, hf]
    have hdrop : (c :: (pcs ++ tail)).drop (c :: pcs).length = tail := by
      simpa using List.drop_left pcs tail
    rw [hdrop]
    have hcongr : replaceFuelM (c :: pcs) f ((pcs ++ tail).length) tail
        = replaceFuelM (c :: pcs) f tail.length tail := by
      apply replaceFuelM_congr
      · simp
      · exact Nat.le_refl _
    rw [hcongr]
    rfl

theorem replaceAllM_step (pat : List Char) (f : Unit → Except PubError (List Char))
    (c : Char) (rest : List Char) (h : pat.isPrefixOf (c :: rest) = false) :
    replaceAllM pat f (c :: rest) =
      match replaceAllM pat f rest with
      | .error e => .error e
      | .ok t => .ok (c :: t) := by
  show replaceFuelM pat f ((c :: rest).length) (c :: rest) = _
  simp only [List.length_cons]
  rw [replaceFuelM, if_neg]
  · rfl
  · intro hcon
    have := hcon.2
    simp [h] at this

/-! ## Helper lemmas about escaping -/

theorem bool_ne_true (b : Bool) (h : b = false) : ¬ b = true := by simp [h]

theorem okEscFuel_congr :
    ∀ (fuel fuel' : Nat) (l : List Char), l.length ≤ fuel → l.length ≤ fuel' →
      okEscFuel fuel l = okEscFuel fuel' l := by
  intro fuel
  induction fuel with
  | zero =>
    intro fuel' l h h'
    cases l with
    | nil => cases fuel' <;> rfl
    | cons c rest => simp at h
  | succ fu ih =>
    intro fuel' l h h'
    cases l with
    | nil => cases fuel' <;> rfl
    | cons c rest =>
      cases fuel' with
      | zero => simp at h'
      | succ fu' =>
        simp only [List.length_cons] at h h'
        simp only [okEscFuel]
        split_ifs <;> try rfl
        all_goals apply ih
        all_goals first
          | omega
          | (simp only [List.length_drop]; omega)

theorem okEscaped_plain_cons (c : Char) (rest : List Char)
    (h1 : c ≠ '<') (h2 : c ≠ '>') (h3 : c ≠ '\"') (h4 : c ≠ '&') :
    okEscaped (c :: rest) = okEscaped rest := by
  show okEscFuel ((c :: rest).length) (c :: rest) = _
  simp only [List.length_cons]
  rw [okEscFuel, if_neg (by simp [h1, h2, h3]), if_neg (by simp [h4])]
  rfl

theorem okEscaped_amp (rest : List Char) :
    okEscaped ('&' :: 'a' :: 'm' :: 'p' :: ';' :: rest) = okEscaped rest := by
  show okEscFuel (('&' :: 'a' :: 'm' :: 'p' :: ';' :: rest).length) _ = _
  simp only [List.length_cons]
  have hpre : (cs ("amp;")).isPrefixOf ('a' :: 'm' :: 'p' :: ';' :: rest) = true :=
    isPrefixOf_self_append (cs ("amp;")) rest
  rw [okEscFuel, if_neg (by simp), if_pos (by simp), if_pos hpre]
  exact okEscFuel_congr _ _ rest (by omega) (by omega)

theorem okEscaped_lt (rest : List Char) :
    okEscaped ('&' :: 'l' :: 't' :: ';' :: rest) = okEscaped rest := by
  show okEscFuel (('&' :: 'l' :: 't' :: ';' :: rest).length) _ = _
  simp only [List.length_cons]
  have hpre : (cs ("lt;")).isPrefixOf ('l' :: 't' :: ';' :: rest) = true :=
    isPrefixOf_self_append (cs ("lt;")) rest
  rw [okEscFuel, if_neg (by simp), if_pos (by simp),
    if_neg (bool_ne_true ((cs ("amp;")).isPrefixOf ('l' :: 't' :: ';' :: rest)) rfl),
    if_pos hpre]
  exact okEscFuel_congr _ _ rest (by omega) (by omega)

theorem okEscaped_gt (rest : List Char) :
    okEscaped ('&' :: 'g' :: 't' :: ';' :: rest) = okEscaped rest := by
  show okEscFuel (('&' :: 'g' :: 't' :: ';' :: rest).length) _ = _
  simp only [List.length_cons]
  have hpre : (cs ("gt;")).isPrefixOf ('g' :: 't' :: ';' :: rest) = true :=
    isPrefixOf_self_append (cs ("gt;")) rest
  rw [okEscFuel, if_neg (by simp), if_pos (by simp),
    if_neg (bool_ne_true ((cs ("amp;")).isPrefixOf ('g' :: 't' :: ';' :: rest)) rfl),
    if_neg (bool_ne_true ((cs ("lt;")).isPrefixOf ('g' :: 't' :: ';' :: rest)) rfl),
    if_pos hpre]
  exact okEscFuel_congr _ _ rest (by omega) (by omega)

theorem okEscaped_quot (rest : List Char) :
    okEscaped ('&' :: 'q' :: 'u' :: 'o' :: 't' :: ';' :: rest) = okEscaped rest := by
  show okEscFuel (('&' :: 'q' :: 'u' :: 'o' :: 't' :: ';' :: rest).length) _ = _
  simp only [List.length_cons]
  have hpre : (cs ("quot;")).isPrefixOf ('q' :: 'u' :: 'o' :: 't' :: ';' :: rest) = true :=
    isPrefixOf_self_append (cs ("quot;")) rest
  rw [okEscFuel, if_neg (by simp), if_pos (by simp),
    if_neg (bool_ne_true ((cs ("amp;")).isPrefixOf ('q' :: 'u' :: 'o' :: 't' :: ';' :: rest)) rfl),
    if_neg (bool_ne_true ((cs ("lt;")).isPrefixOf ('q' :: 'u' :: 'o' :: 't' :: ';' :: rest)) rfl),
    if_neg (bool_ne_true ((cs ("gt;")).isPrefixOf ('q' :: 'u' :: 'o' :: 't' :: ';' :: rest)) rfl),
    if_pos hpre]
  exact okEscFuel_congr _ _ rest (by omega) (by omega)

theorem okEscaped_apos (rest : List Char) :
    okEscaped ('&' :: '#' :: '3' :: '9' :: ';' :: rest) = okEscaped rest := by
  show okEscFuel (('&' :: '#' :: '3' :: '9' :: ';' :: rest).length) _ = _
  simp only [List.length_cons]
  have hpre : (cs ("#39;")).isPrefixOf ('#' :: '3' :: '9' :: ';' :: rest) = true :=
    isPrefixOf_self_append (cs ("#39;")) rest
  rw [okEscFuel, if_neg (by simp), if_pos (by simp),
    if_neg (bool_ne_true ((cs ("amp;")).isPrefixOf ('#' :: '3' :: '9' :: ';' :: rest)) rfl),
    if_neg (bool_ne_true ((cs ("lt;")).isPrefixOf ('#' :: '3' :: '9' :: ';' :: rest)) rfl),
    if_neg (bool_ne_true ((cs ("gt;")).isPrefixOf ('#' :: '3' :: '9' :: ';' :: rest)) rfl),
    if_neg (bool_ne_true ((cs ("quot;")).isPrefixOf ('#' :: '3' :: '9' :: ';' :: rest)) rfl),
    if_pos hpre]
  exact okEscFuel_congr _ _ rest (by omega) (by omega)

theorem okEscaped_escChar (c : Char) (rest : List Char) :
    okEscaped (escChar c ++ rest) = okEscaped rest := by
  by_cases h1 : c = '&'
  · subst h1
    exact okEscaped_amp rest
  by_cases h2 : c = '<'
  · subst h2
    exact okEscaped_lt rest
  by_cases h3 : c = '>'
  · subst h3
    exact okEscaped_gt rest
  by_cases h4 : c = '\"'
  · subst h4
    exact okEscaped_quot rest
  by_cases h5 : c = Char.ofNat 39
  · subst h5
    exact okEscaped_apos rest
  have he : escChar c = [c] := by simp [escChar, h1, h2, h3, h4, h5]
  rw [he]
  exact okEscaped_plain_cons c rest h2 h3 h4 h1

theorem okEscaped_escapeList (s : List Char) : okEscaped (escapeList s) = true := by
  induction s with
  | nil => rfl
  | cons c rest ih => rw [escapeList, okEscaped_escChar, ih]

/-! ## Helper lemmas about decimal rendering -/

theorem digitChar_range (m : Nat) (h : m < 10) :
    48 ≤ (Nat.digitChar m).toNat ∧ (Nat.digitChar m).toNat ≤ 57 := by
  interval_cases m <;> decide

theorem toDigitsCore_range :
    ∀ (fuel n : Nat) (ds : List Char),
      (∀ c ∈ ds, 48 ≤ c.toNat ∧ c.toNat ≤ 57) →
      ∀ c ∈ Nat.toDigitsCore 10 fuel n ds, 48 ≤ c.toNat ∧ c.toNat ≤ 57 := by
  intro fuel
  induction fuel with
  | zero =>
    intro n ds hds c hc
    exact hds c hc
  | succ fu ih =>
    intro n ds hds c hc
    rw [Nat.toDigitsCore] at hc
    by_cases hz : n / 10 = 0
    · rw [if_pos hz] at hc
      rcases List.mem_cons.mp hc with h | h
      · rw [h]
        exact digitChar_range _ (Nat.mod_lt _ (by omega))
      · exact hds c h
    · rw [if_neg hz] at hc
      refine ih (n / 10) _ ?_ c hc
      intro d hd
      rcases List.mem_cons.mp hd with h | h
      · rw [h]
        exact digitChar_range _ (Nat.mod_lt _ (by omega))
      · exact hds d h

theorem natChars_range (n : Nat) : ∀ c ∈ natChars n, 48 ≤ c.toNat ∧ c.toNat ≤ 57 := by
  intro c hc
  exact toDigitsCore_range (n + 1) n [] (by simp) c hc

theorem digit_not_special (c : Char) (h1 : 48 ≤ c.toNat) (h2 : c.toNat ≤ 57) :
    c ≠ '&' ∧ c ≠ '<' ∧ c ≠ '>' ∧ c ≠ '\"' ∧ c ≠ Char.ofNat 39 := by
  refine ⟨?_, ?_, ?_, ?_, ?_⟩ <;>
    (intro he; rw [he] at h1 h2; revert h1 h2; decide)

theorem escChar_digit (c : Char) (h1 : 48 ≤ c.toNat) (h2 : c.toNat ≤ 57) :
    escChar c = [c] := by
  obtain ⟨a1, a2, a3, a4, a5⟩ := digit_not_special c h1 h2
  simp [escChar, a1, a2, a3, a4, a5]

theorem escapeList_digits (l : List Char)
    (h : ∀ c ∈ l, 48 ≤ c.toNat ∧ c.toNat ≤ 57) : escapeList l = l := by
  induction l with
  | nil => rfl
  | cons c rest ih =>
    rw [escapeList, escChar_digit c (h c (by simp)).1 (h c (by simp)).2,
      ih (fun d hd => h d (by simp [hd]))]
    rfl

theorem escapeList_natChars (n : Nat) : escapeList (natChars n) = natChars n :=
  escapeList_digits _ (natChars_range n)

theorem okEscaped_of_digits_dash (l : List Char)
    (h : ∀ c ∈ l, (48 ≤ c.toNat ∧ c.toNat ≤ 57) ∨ c = '-') : okEscaped l = true := by
  induction l with
  | nil => rfl
  | cons c rest ih =>
    have hstep : okEscaped (c :: rest) = okEscaped rest := by
      rcases h c (by simp) with ⟨h1, h2⟩ | rfl
      · obtain ⟨a1, a2, a3, a4, _⟩ := digit_not_special c h1 h2
        exact okEscaped_plain_cons c rest a2 a3 a4 a1
      · exact okEscaped_plain_cons '-' rest (by decide) (by decide) (by decide) (by decide)
    rw [hstep]
    exact ih (fun d hd => h d (by simp [hd]))

theorem okEscaped_natChars (n : Nat) : okEscaped (natChars n) = true :=
  okEscaped_of_digits_dash _ (fun c hc => Or.inl (natChars_range n c hc))

theorem okEscaped_intChars (i : Int) : okEscaped (intChars i) = true := by
  unfold intChars
  by_cases hn : i < 0
  · rw [if_pos hn]
    apply okEscaped_of_digits_dash
    intro c hc
    rcases List.mem_cons.mp hc with h | h
    · exact Or.inr h
    · exact Or.inl (natChars_range _ c h)
  · rw [if_neg hn]
    exact okEscaped_natChars _

/-! ## Helper lemmas about the passage walk and publishStory -/

theorem walkPassages_fst (sid : Option (List Char)) :
    ∀ (ps : List Passage) (i : Nat) (sl : Option Nat),
      (walkPassages sid ps i sl).1
        = ((ps.enumFrom i).map fun x => publishPassage x.2 (x.1 + 1)).flatten := by
  intro ps
  induction ps with
  | nil => intro i sl; rfl
  | cons p rest ih =>
    intro i sl
    simp only [walkPassages, List.enumFrom, List.map_cons, List.flatten_cons]
    rw [ih]

theorem walkPassages_snd_nomatch (sid : Option (List Char)) :
    ∀ (ps : List Passage) (i : Nat) (sl : Option Nat),
      (∀ p ∈ ps, ¬ some p.id = sid) → (walkPassages sid ps i sl).2 = sl := by
  intro ps
  induction ps with
  | nil => intro i sl _; rfl
  | cons p rest ih =>
    intro i sl h
    simp only [walkPassages]
    rw [if_neg (h p (by simp))]
    exact ih (i + 1) sl (fun q hq => h q (by simp [hq]))

theorem walkPassages_snd_match (sid : Option (List Char)) :
    ∀ (ps : List Passage) (j : Nat) (p : Passage) (i : Nat) (sl : Option Nat),
      ps.get? j = some p → some p.id = sid →
      (∀ k q, ps.get? k = some q → some q.id = sid → k ≤ j) →
      (walkPassages sid ps i sl).2 = some (i + j + 1) := by
  intro ps
  induction ps with
  | nil =>
    intro j p i sl hj
    simp at hj
  | cons p0 rest ih =>
    intro j p i sl hj hmatch hbound
    cases j with
    | zero =>
      rw [List.get?_cons_zero] at hj
      have hp0 : p0 = p := by injection hj
      subst hp0
      simp only [walkPassages]
      rw [if_pos hmatch]
      rw [walkPassages_snd_nomatch]
      intro q hq
      obtain ⟨k, hk⟩ := List.get?_of_mem hq
      intro hqsid
      have := hbound (k + 1) q (by rw [List.get?_cons_succ]; exact hk) hqsid
      omega
    | succ j' =>
      rw [List.get?_cons_succ] at hj
      simp only [walkPassages]
      have := ih j' p (i + 1)
        (if some p0.id = sid then some (i + 1) else sl) hj hmatch
        (fun k q hk hq => by
          have := hbound (k + 1) q (by rw [List.get?_cons_succ]; exact hk) hq
          omega)
      rw [this]
      congr 1
      omega

theorem storyAssemble_body (app : AppInfo) (story : Story) (opts : Option (List Char))
    (sid : Option (List Char)) :
    storyAssemble app story opts sid
      = storyBodyWith app story opts
          (startnodeChars (walkPassages sid story.passages 0 none).2) := by
  unfold storyAssemble storyBodyWith
  rw [walkPassages_fst]
  rfl

theorem publishStory_lenient (app : AppInfo) (story : Story) (opts sid : Option (List Char)) :
    publishStory app story opts sid true
      = .ok (storyAssemble app story opts (jsOr sid story.startPassage)) := rfl

theorem publishStory_ok (app : AppInfo) (story : Story) (opts sid : Option (List Char))
    (so : Bool) (out : List Char) (h : publishStory app story opts sid so = .ok out) :
    out = storyAssemble app story opts (jsOr sid story.startPassage) := by
  unfold publishStory publishStoryResolved at h
  by_cases h1 : so = false ∧ jsTruthy (jsOr sid story.startPassage) = false
  · rw [if_pos h1] at h
    exact absurd h (by simp)
  · rw [if_neg h1] at h
    by_cases h2 : so = false ∧
        (story.passages.find? fun p => decide (some p.id = jsOr sid story.startPassage)).isNone = true
    · rw [if_pos h2] at h
      exact absurd h (by simp)
    · rw [if_neg h2] at h
      simp only [Except.ok.injEq] at h
      exact h.symm

theorem publishStory_strict_noStart (app : AppInfo) (story : Story)
    (opts sid : Option (List Char)) (h : jsTruthy (jsOr sid story.startPassage) = false) :
    publishStory app story opts sid false = .error .noStartPoint := by
  unfold publishStory publishStoryResolved
  rw [if_pos ⟨rfl, h⟩]

theorem publishStory_strict_notFound (app : AppInfo) (story : Story)
    (opts sid : Option (List Char))
    (ht : jsTruthy (jsOr sid story.startPassage) = true)
    (hf : (story.passages.find? fun p => decide (some p.id = jsOr sid story.startPassage)).isNone) :
    publishStory app story opts sid false = .error .startPointNotFound := by
  unfold publishStory publishStoryResolved
  rw [if_neg (by simp [ht]), if_pos ⟨rfl, hf⟩]

theorem publishStory_no_template_error (app : AppInfo) (story : Story)
    (opts sid : Option (List Char)) (so : Bool) :
    publishStory app story opts sid so ≠ .error .missingTemplateSource := by
  unfold publishStory publishStoryResolved
  split
  · simp
  · split
    · simp
    · simp

/-! ## Helper lemma about the archive fold -/

theorem publishArchive_fold (app : AppInfo) :
    ∀ (stories : List Story) (acc : List Char),
      List.foldlM (archiveStep app) acc stories
      = .ok (acc ++
          (stories.map fun s =>
            storyAssemble app s none (jsOr none s.startPassage) ++ cs ("\n\n")).flatten) := by
  intro stories
  induction stories with
  | nil =>
    intro acc
    show Except.ok acc = _
    simp
  | cons s rest ih =>
    intro acc
    rw [List.foldlM_cons]
    have hstep : archiveStep app acc s
        = .ok (acc ++ storyAssemble app s none (jsOr none s.startPassage) ++ cs ("\n\n")) := by
      unfold archiveStep
      rw [publishStory_lenient]
    rw [hstep]
    show List.foldlM (archiveStep app)
        (acc ++ storyAssemble app s none (jsOr none s.startPassage) ++ cs ("\n\n")) rest = _
    rw [ih]
    simp [List.append_assoc]

/-! ## Claim theorems -/

set_option maxRecDepth 10000 in
/-- Claim C1, counterexample: for a story with two tag colors, the
serialized output carries a comma between the two tag-definition
elements (JavaScript array-to-string coercion of the tagData array), so
it differs from the comma-free content the claim describes. -/
theorem c1_counterexample :
    publishStory app0 storyTwoTags none none true
      = .ok (storyOpenTag app0 storyTwoTags none [] ++ styleElem storyTwoTags
          ++ scriptElem storyTwoTags
          ++ (tagElem (cs ("a"), cs ("red")) ++ cs (",") ++ tagElem (cs ("b"), cs ("blue")))
          ++ [] ++ cs ("</tw-storydata>"))
    ∧ (storyOpenTag app0 storyTwoTags none [] ++ styleElem storyTwoTags
          ++ scriptElem storyTwoTags
          ++ (tagElem (cs ("a"), cs ("red")) ++ cs (",") ++ tagElem (cs ("b"), cs ("blue")))
          ++ [] ++ cs ("</tw-storydata>"))
      ≠ (storyOpenTag app0 storyTwoTags none [] ++ styleElem storyTwoTags
          ++ scriptElem storyTwoTags
          ++ (tagElem (cs ("a"), cs ("red")) ++ tagElem (cs ("b"), cs ("blue")))
          ++ [] ++ cs ("</tw-storydata>")) := by
  refine ⟨rfl, by decide⟩

/-- Claim C1, amended: the element content of every successful
publishStory output is, in this order, the stylesheet element wrapping
the raw stylesheet, the script element wrapping the raw script, the
tag-definition elements joined by single commas, then the passage data
elements in passage-collection order with local ids one upward, and
nothing else. -/
theorem c1_amended (app : AppInfo) (story : Story) (opts sid : Option (List Char)) (so : Bool)
    (out : List Char) (h : publishStory app story opts sid so = .ok out) :
    out = storyOpenTag app story opts
        (startnodeChars (walkPassages (jsOr sid story.startPassage) story.passages 0 none).2)
      ++ styleElem story ++ scriptElem story
      ++ List.intercalate (cs (",")) (story.tagColors.map tagElem)
      ++ ((story.passages.enum).map fun x => publishPassage x.2 (x.1 + 1)).flatten
      ++ cs ("</tw-storydata>") := by
  rw [publishStory_ok _ _ _ _ _ _ h, storyAssemble_body]
  rfl

/-- Claim C1, witness for the amended statement at a concrete story. -/
theorem c1_amended_witness :
    storyAssemble app0 storyTwoTags none (jsOr none storyTwoTags.startPassage)
      = storyOpenTag app0 storyTwoTags none
          (startnodeChars
            (walkPassages (jsOr none storyTwoTags.startPassage) storyTwoTags.passages 0 none).2)
        ++ styleElem storyTwoTags ++ scriptElem storyTwoTags
        ++ List.intercalate (cs (",")) (storyTwoTags.tagColors.map tagElem)
        ++ ((storyTwoTags.passages.enum).map fun x => publishPassage x.2 (x.1 + 1)).flatten
        ++ cs ("</tw-storydata>") :=
  c1_amended app0 storyTwoTags none none true _ rfl

/-- Claim C2: every successful publishStory output lays out the passages
in collection order with local ids one upward; under a unique match of
the resolved start identifier at index j the startnode attribute is the
decimal of j plus one; with no match, lenient mode yields an empty
startnode and strict mode raises. -/
theorem c2_localIds (app : AppInfo) (story : Story) (opts sid : Option (List Char)) (so : Bool) :
    (∀ out, publishStory app story opts sid so = .ok out →
        ∃ sn, out = storyBodyWith app story opts sn)
    ∧ (∀ (j : Nat) (p : Passage) (out : List Char),
        story.passages.get? j = some p →
        some p.id = jsOr sid story.startPassage →
        (∀ k q, story.passages.get? k = some q →
          some q.id = jsOr sid story.startPassage → k = j) →
        publishStory app story opts sid so = .ok out →
        out = storyBodyWith app story opts (natChars (j + 1)))
    ∧ ((∀ p ∈ story.passages, ¬ some p.id = jsOr sid story.startPassage) →
        publishStory app story opts sid true = .ok (storyBodyWith app story opts []))
    ∧ ((∀ p ∈ story.passages, ¬ some p.id = jsOr sid story.startPassage) →
        ∃ e, publishStory app story opts sid false = .error e) := by
  refine ⟨?_, ?_, ?_, ?_⟩
  · intro out h
    exact ⟨_, by rw [publishStory_ok _ _ _ _ _ _ h, storyAssemble_body]⟩
  · intro j p out hj hp huniq h
    rw [publishStory_ok _ _ _ _ _ _ h, storyAssemble_body]
    have hw := walkPassages_snd_match (jsOr sid story.startPassage) story.passages j p 0 none
      hj hp (fun k q hk hq => le_of_eq (huniq k q hk hq))
    rw [hw]
    simp [startnodeChars]
  · intro hno
    rw [publishStory_lenient, storyAssemble_body, walkPassages_snd_nomatch _ _ _ _ hno]
    rfl
  · intro hno
    by_cases ht : jsTruthy (jsOr sid story.startPassage) = true
    · refine ⟨.startPointNotFound, publishStory_strict_notFound app story opts sid ht ?_⟩
      have hn : (story.passages.find?
          fun p => decide (some p.id = jsOr sid story.startPassage)) = none :=
        List.find?_eq_none.mpr (fun x hx => by simpa using hno x hx)
      rw [hn]
      rfl
    · simp only [Bool.not_eq_true] at ht
      exact ⟨.noStartPoint, publishStory_strict_noStart app story opts sid ht⟩

/-- Claim C2, witness: the concrete two-passage story with declared
start at the second passage publishes with startnode 2. -/
theorem c2_localIds_witness :
    publishStory app0 storyTwoPass none none false
      = .ok (storyBodyWith app0 storyTwoPass none (natChars 2)) := by
  have h := (c2_localIds app0 storyTwoPass none none false).2.1 1 passB
      (storyAssemble app0 storyTwoPass none (jsOr none storyTwoPass.startPassage))
      rfl rfl
      (fun k q hk hq => by
        cases k with
        | zero =>
          have hk2 : some passA = some q := hk
          have hq2 : q = passA := by
            injection hk2 with hk2
            exact hk2.symm
          rw [hq2] at hq
          exact absurd hq (by decide)
        | succ k' =>
          cases k' with
          | zero => rfl
          | succ k'' =>
            have hk2 : (none : Option Passage) = some q := hk
            exact absurd hk2 (by simp))
      rfl
  exact (show publishStory app0 storyTwoPass none none false
      = .ok (storyAssemble app0 storyTwoPass none (jsOr none storyTwoPass.startPassage))
    from rfl).trans (congrArg Except.ok h)

/-- Claim C3, counterexample: a story whose declared start is the empty
string and whose sole passage has the empty identifier raises
NoStartPoint in strict mode, yet its lenient serialization carries
startnode 1, not the empty startnode the claim asserts. -/
theorem c3_counterexample :
    publishStory app0 storyEmptyStart none none false = .error .noStartPoint
    ∧ publishStory app0 storyEmptyStart none none true
        = .ok (storyBodyWith app0 storyEmptyStart none (natChars 1))
    ∧ natChars 1 ≠ [] := by
  refine ⟨rfl, rfl, by decide⟩

/-- Claim C3, amended: strict mode raises NoStartPoint on a falsy
resolved identifier and StartPointNotFound on a truthy identifier
matching no passage, producing no fragment; lenient mode succeeds with
an empty startnode whenever no passage identifier equals the resolved
identifier. -/
theorem c3_amended (app : AppInfo) (story : Story) (opts sid : Option (List Char)) :
    (jsTruthy (jsOr sid story.startPassage) = false →
        publishStory app story opts sid false = .error .noStartPoint)
    ∧ (jsTruthy (jsOr sid story.startPassage) = true →
        (∀ p ∈ story.passages, ¬ some p.id = jsOr sid story.startPassage) →
        publishStory app story opts sid false = .error .startPointNotFound)
    ∧ ((∀ p ∈ story.passages, ¬ some p.id = jsOr sid story.startPassage) →
        publishStory app story opts sid true = .ok (storyBodyWith app story opts [])) := by
  refine ⟨publishStory_strict_noStart app story opts sid, ?_, ?_⟩
  · intro ht hno
    apply publishStory_strict_notFound app story opts sid ht
    have hn : (story.passages.find?
        fun p => decide (some p.id = jsOr sid story.startPassage)) = none :=
      List.find?_eq_none.mpr (fun x hx => by simpa using hno x hx)
    rw [hn]
    rfl
  · intro hno
    rw [publishStory_lenient, storyAssemble_body, walkPassages_snd_nomatch _ _ _ _ hno]
    rfl

/-- Claim C3, witness for the amended statement at a startless story. -/
theorem c3_amended_witness :
    publishStory app0 storyNoStart none none false = .error .noStartPoint
    ∧ publishStory app0 storyNoStart none none true
        = .ok (storyBodyWith app0 storyNoStart none []) :=
  ⟨(c3_amended app0 storyNoStart none none).1 (by decide),
    (c3_amended app0 storyNoStart none none).2.2 (by decide)⟩

/-- Claim C4: lodash.escape output never holds a raw angle bracket or
double quote and every ampersand in it starts an entity; the passage
name and text enter publishPassage, and the story name enters the
publishStory output, only through lodash.escape. -/
theorem c4_escaping :
    (∀ s : List Char, okEscaped (escapeList s) = true)
    ∧ (∀ (p : Passage) (n : Nat), ∃ mid,
        publishPassage p n
          = cs ("<tw-passagedata pid=\"") ++ escapeList (natChars n)
            ++ cs ("\" name=\"") ++ escapeList p.name ++ mid
            ++ escapeList p.text ++ cs ("</tw-passagedata>"))
    ∧ (∀ (app : AppInfo) (story : Story) (opts sid : Option (List Char)) (so : Bool)
        (out : List Char), publishStory app story opts sid so = .ok out →
        ∃ rest, out = cs ("<tw-storydata name=\"") ++ escapeList story.name ++ rest) := by
  refine ⟨okEscaped_escapeList, ?_, ?_⟩
  · intro p n
    refine ⟨cs ("\" tags=\"") ++ escapeList (List.intercalate (cs (" ")) p.tags)
      ++ cs ("\" position=\"") ++ intChars p.left ++ cs (",") ++ intChars p.top
      ++ cs ("\" size=\"") ++ intChars p.width ++ cs (",") ++ intChars p.height
      ++ cs ("\">"), ?_⟩
    unfold publishPassage
    simp [List.append_assoc]
  · intro app story opts sid so out h
    rw [publishStory_ok _ _ _ _ _ _ h]
    refine ⟨cs ("\" startnode=\"")
      ++ startnodeChars (walkPassages (jsOr sid story.startPassage) story.passages 0 none).2
      ++ cs ("\" creator=\"") ++ escapeList app.name
      ++ cs ("\" creator-version=\"") ++ escapeList app.version
      ++ cs ("\" ifid=\"") ++ escapeList story.ifid
      ++ cs ("\" zoom=\"") ++ escapeList (natChars story.zoom)
      ++ cs ("\" format=\"") ++ escapeList story.storyFormat
      ++ cs ("\" format-version=\"") ++ escapeList story.storyFormatVersion
      ++ cs ("\" options=\"") ++ escOpt opts ++ cs ("\" hidden>")
      ++ styleElem story ++ scriptElem story
      ++ List.intercalate (cs (",")) (story.tagColors.map tagElem)
      ++ (walkPassages (jsOr sid story.startPassage) story.passages 0 none).1
      ++ cs ("</tw-storydata>"), ?_⟩
    unfold storyAssemble storyOpenTag
    simp [List.append_assoc]

/-- Claim C4, witness: the publishStory clause instantiated at a
concrete run. -/
theorem c4_escaping_witness :
    ∃ rest, storyAssemble app0 storyTwoTags none (jsOr none storyTwoTags.startPassage)
      = cs ("<tw-storydata name=\"") ++ escapeList storyTwoTags.name ++ rest :=
  c4_escaping.2.2 app0 storyTwoTags none none true _ rfl

/-- Claim C6: the archive of no stories is the empty string, and the
archive of any list of stories is the concatenation, in list order, of
each story published leniently with no explicit start and null format
options, each followed by a blank line, with no enclosing wrapper; a
singleton archive is the lenient publication plus a blank line. -/
theorem c6_archive (app : AppInfo) :
    publishArchive [] app = .ok []
    ∧ (∀ stories : List Story,
        publishArchive stories app
          = .ok ((stories.map fun s =>
              storyAssemble app s none (jsOr none s.startPassage) ++ cs ("\n\n")).flatten))
    ∧ (∀ S : Story, publishStory app S none none true
          = .ok (storyAssemble app S none (jsOr none S.startPassage)))
    ∧ (∀ S : Story, publishArchive [S] app
          = .ok (storyAssemble app S none (jsOr none S.startPassage) ++ cs ("\n\n"))) := by
  refine ⟨rfl, ?_, ?_, ?_⟩
  · intro stories
    unfold publishArchive
    rw [publishArchive_fold]
    simp
  · intro S
    exact publishStory_lenient app S none none
  · intro S
    unfold publishArchive
    rw [publishArchive_fold]
    simp

/-- Claim C7: publishPassage output is the passage-data element whose
pid attribute is the decimal local id, whose name, space-joined tags and
text are escaped, and whose position and size tokens are the decimal
coordinates; every attribute value and the text are safely escaped. -/
theorem c7_passage (p : Passage) (n : Nat) :
    publishPassage p n
      = cs ("<tw-passagedata pid=\"") ++ natChars n
        ++ cs ("\" name=\"") ++ escapeList p.name
        ++ cs ("\" tags=\"") ++ escapeList (List.intercalate (cs (" ")) p.tags)
        ++ cs ("\" position=\"") ++ intChars p.left ++ cs (",") ++ intChars p.top
        ++ cs ("\" size=\"") ++ intChars p.width ++ cs (",") ++ intChars p.height
        ++ cs ("\">") ++ escapeList p.text ++ cs ("</tw-passagedata>")
    ∧ okEscaped (escapeList p.name) = true
    ∧ okEscaped (escapeList (List.intercalate (cs (" ")) p.tags)) = true
    ∧ okEscaped (escapeList p.text) = true
    ∧ okEscaped (natChars n) = true
    ∧ okEscaped (intChars p.left) = true ∧ okEscaped (intChars p.top) = true
    ∧ okEscaped (intChars p.width) = true ∧ okEscaped (intChars p.height) = true := by
  refine ⟨?_, okEscaped_escapeList _, okEscaped_escapeList _, okEscaped_escapeList _,
    okEscaped_natChars n, okEscaped_intChars _, okEscaped_intChars _, okEscaped_intChars _,
    okEscaped_intChars _⟩
  unfold publishPassage
  rw [escapeList_natChars]

/-- Claim C8, counterexample: with an explicit but empty start
identifier argument and a declared start matching the sole passage,
strict publication succeeds using the declared start (startnode 1), so
the effective identifier is not the explicitly given empty one. -/
theorem c8_counterexample :
    publishStory app0 storyDeclared none (some []) false
      = .ok (storyBodyWith app0 storyDeclared none (natChars 1))
    ∧ jsOr (some []) storyDeclared.startPassage ≠ some ([] : List Char) := by
  refine ⟨rfl, by decide⟩

/-- Claim C8, amended: the effective start identifier is the explicit
argument exactly when that argument is truthy (present and nonempty);
an absent or empty argument falls back to the declared start passage. -/
theorem c8_amended :
    (∀ (s : List Char) (b : Option (List Char)), s ≠ [] → jsOr (some s) b = some s)
    ∧ (∀ b : Option (List Char), jsOr none b = b)
    ∧ (∀ b : Option (List Char), jsOr (some []) b = b)
    ∧ (∀ (app : AppInfo) (story : Story) (opts sid : Option (List Char)) (so : Bool),
        publishStory app story opts sid so
          = publishStoryResolved app story opts (jsOr sid story.startPassage) so) := by
  refine ⟨?_, fun b => rfl, fun b => rfl, fun app story opts sid so => rfl⟩
  intro s b hs
  simp [jsOr, hs]

/-- Claim C8, witness for the amended statement. -/
theorem c8_amended_witness : jsOr (some (cs ("x"))) none = some (cs ("x")) :=
  c8_amended.1 (cs ("x")) none (by decide)

set_option maxRecDepth 10000 in
/-- Claim C9, counterexample: a descriptor whose properties.source is
present but empty raises MissingTemplateSource, and a descriptor with a
nonempty source can still raise (NoStartPoint) when the template holds
the data token and the story has no start, so presence of the source
does not make the operation succeed. -/
theorem c9_counterexample :
    publishStoryWithFormat app0 storyDollar fmtEmptySource none none
        = .error .missingTemplateSource
    ∧ fmtEmptySource.properties = some ⟨some []⟩
    ∧ publishStoryWithFormat app0 storyNoStart fmtDataOnly none none
        = .error .noStartPoint :=
  ⟨rfl, rfl, rfl⟩

/-- Claim C9, amended: publishStoryWithFormat raises
MissingTemplateSource exactly when the descriptor lacks properties,
lacks properties.source, or has an empty source; with a nonempty source
it never raises MissingTemplateSource, though start-point errors can
still propagate from the strict story publication. -/
theorem c9_amended (app : AppInfo) (story : Story) (fmt : StoryFormat)
    (opts sid : Option (List Char)) :
    ((fmt.properties = none
        ∨ ∃ props, fmt.properties = some props ∧ (props.source = none ∨ props.source = some []))
      → publishStoryWithFormat app story fmt opts sid = .error .missingTemplateSource)
    ∧ (∀ props src, fmt.properties = some props → props.source = some src → src ≠ [] →
        publishStoryWithFormat app story fmt opts sid ≠ .error .missingTemplateSource) := by
  constructor
  · intro hcase
    rcases hcase with hnone | ⟨props, hprops, hsrc⟩
    · unfold publishStoryWithFormat
      rw [hnone]
    · unfold publishStoryWithFormat
      rw [hprops]
      show (match props.source with
        | none => (Except.error PubError.missingTemplateSource : Except PubError (List Char))
        | some src =>
          if src = [] then Except.error PubError.missingTemplateSource
          else
            replaceAllM DATATOK (fun _ => publishStory app story opts sid false)
              (replaceAllList NAMETOK (escapeList story.name) src))
        = Except.error PubError.missingTemplateSource
      rcases hsrc with hs | hs
      · rw [hs]
      · rw [hs]
        rfl
  · intro props src hprops hsrc hne h
    unfold publishStoryWithFormat at h
    rw [hprops] at h
    have h2 : (match props.source with
        | none => (Except.error PubError.missingTemplateSource : Except PubError (List Char))
        | some src =>
          if src = [] then Except.error PubError.missingTemplateSource
          else
            replaceAllM DATATOK (fun _ => publishStory app story opts sid false)
              (replaceAllList NAMETOK (escapeList story.name) src))
        = Except.error PubError.missingTemplateSource := h
    rw [hsrc] at h2
    have h3 : (if src = [] then (Except.error PubError.missingTemplateSource : Except PubError (List Char))
        else
          replaceAllM DATATOK (fun _ => publishStory app story opts sid false)
            (replaceAllList NAMETOK (escapeList story.name) src))
        = Except.error PubError.missingTemplateSource := h2
    rw [if_neg hne] at h3
    unfold replaceAllM at h3
    exact publishStory_no_template_error app story opts sid false
      (replaceFuelM_error DATATOK _ _ _ _ h3)

/-- Claim C9, witness for the amended statement: a descriptor with no
properties raises MissingTemplateSource. -/
theorem c9_amended_witness :
    publishStoryWithFormat app0 storyDollar fmtNoProps none none
      = .error .missingTemplateSource :=
  (c9_amended app0 storyDollar fmtNoProps none none).1 (Or.inl rfl)

set_option maxRecDepth 100000 in
set_option maxHeartbeats 1000000 in
/-- Claim C5: each placeholder token occurrence is replaced by the
substituted value verbatim, independent of the content of the value,
non-token characters are untouched, and on the specification example
the escaped name and the serialized story land literally between the
template pieces, the dollar-digit passage text appearing verbatim. -/
theorem c5_literal :
    (∀ rep tail : List Char,
        replaceAllList NAMETOK rep (NAMETOK ++ tail) = rep ++ replaceAllList NAMETOK rep tail)
    ∧ (∀ (f : Unit → Except PubError (List Char)) (r tail : List Char), f () = .ok r →
        replaceAllM DATATOK f (DATATOK ++ tail)
          = match replaceAllM DATATOK f tail with
            | .error e => .error e
            | .ok t => .ok (r ++ t))
    ∧ publishStoryWithFormat app0 storyDollar fmtSpec none none
        = .ok (cs ("before A&amp;B mid ")
            ++ storyBodyWith app0 storyDollar none (natChars 1) ++ cs (" after"))
    ∧ containsSeq (cs ("$1")) (storyBodyWith app0 storyDollar none (natChars 1)) = true := by
  refine ⟨fun rep tail => replaceAllList_token NAMETOK rep tail (by decide),
    fun f r tail hf => replaceAllM_token_ok DATATOK tail f r (by decide) hf, ?_, ?_⟩
  · decide
  · decide

/-- Claim C5, witness: the token-replacement clause at a concrete
callback and tail. -/
theorem c5_literal_witness :
    replaceAllM DATATOK (fun _ => (.ok (cs ("X")) : Except PubError (List Char)))
        (DATATOK ++ cs ("Z"))
      = .ok (cs ("X") ++ cs ("Z")) := by
  rw [c5_literal.2.1 (fun _ => .ok (cs ("X"))) (cs ("X")) (cs ("Z")) rfl]
  rfl

set_option maxRecDepth 100000 in
set_option maxHeartbeats 1000000 in
/-- Claim C10: the STORY_NAME pass runs to completion over the whole
template before the STORY_DATA pass runs over the result, so a story
whose name is literally the STORY_DATA token gets the serialized story
substituted inside the escaped name occurrence. -/
theorem c10_sequential :
    (∀ (app : AppInfo) (story : Story) (props : FormatProperties) (src : List Char)
        (opts sid : Option (List Char)),
        props.source = some src → src ≠ [] →
        publishStoryWithFormat app story ⟨some props⟩ opts sid
          = replaceAllM DATATOK (fun _ => publishStory app story opts sid false)
              (replaceAllList NAMETOK (escapeList story.name) src))
    ∧ escapeList storyNameTok.name = DATATOK
    ∧ publishStoryWithFormat app0 storyNameTok fmtAB none none
        = .ok (cs ("A") ++ storyBodyWith app0 storyNameTok none (natChars 1) ++ cs ("B")) := by
  refine ⟨?_, by decide, by decide⟩
  intro app story props src opts sid hsrc hne
  have hstep : publishStoryWithFormat app story ⟨some props⟩ opts sid
      = match props.source with
        | none => .error .missingTemplateSource
        | some src =>
          if src = [] then .error .missingTemplateSource
          else
            replaceAllM DATATOK (fun _ => publishStory app story opts sid false)
              (replaceAllList NAMETOK (escapeList story.name) src) := rfl
  rw [hstep, hsrc]
  show (if src = [] then (Except.error PubError.missingTemplateSource : Except PubError (List Char))
      else
        replaceAllM DATATOK (fun _ => publishStory app story opts sid false)
          (replaceAllList NAMETOK (escapeList story.name) src))
    = replaceAllM DATATOK (fun _ => publishStory app story opts sid false)
        (replaceAllList NAMETOK (escapeList story.name) src)
  rw [if_neg hne]

/-- Claim C10, witness: the sequencing clause at a concrete template. -/
theorem c10_sequential_witness :
    publishStoryWithFormat app0 storyDollar ⟨some ⟨some (cs ("Q"))⟩⟩ none none
      = replaceAllM DATATOK (fun _ => publishStory app0 storyDollar none none false)
          (replaceAllList NAMETOK (escapeList storyDollar.name) (cs ("Q"))) :=
  c10_sequential.1 app0 storyDollar ⟨some (cs ("Q"))⟩ (cs ("Q")) none none rfl (by decide)
